import Mathlib

/-!
Verification of the Win32 thread back-end (`src/win32/thread.c`).

This file gives a shallow embedding of the concurrency primitives of the
back-end — condition variables, thread cancellation, thread-local storage
cleanup, read-write locks, cancel-state save/restore, timers — and proves
properties of the embedded definitions.

Modelling conventions:
* Machine integers are `Nat`/`Int`.  C99 signed division truncates toward
  zero, which is `Int.tdiv`; conversion of a signed 64-bit value to a
  Win32 `DWORD` is reduction modulo `2^32` (`Int.emod`, then `toNat`).
* The OS wait primitive (`WaitForMultipleObjectsEx` on the condvar's
  manual-reset event, alertable) is external to the repository; it is
  modelled by `osWait`: a set event wins, otherwise a pending APC yields
  `WAIT_IO_COMPLETION`, otherwise the wait times out after the finite
  delay (an INFINITE wait with nothing pending blocks forever, modelled
  as `none`).
* Each iteration of a wait loop consumes one `WaitEnv` describing what the
  environment did during that iteration (whether some thread set the event,
  whether an APC was queued, and the clock reading at the head of the
  iteration).  Loops are driven by this finite list, so functions return
  `Option`: `none` means the environment trace ran out (the thread is
  still blocked).
* The calling thread of the condvar operations is modelled as one with no
  thread record (`vlc_testcancel` is then a no-op), since the properties
  proved below do not involve cancellation of the waiter.  The mutex handed to
  `wait`/`timed_wait` is released and reacquired around the OS wait and is
  returned to the caller unchanged; it does not influence the result and
  is left out of the state.
-/

/-- Result of the OS-level wait primitive, as used by the back-end. -/
inductive WaitResult where
  | object0       -- WAIT_OBJECT_0 : the event was signaled
  | timeout       -- WAIT_TIMEOUT : the delay elapsed
  | ioCompletion  -- WAIT_IO_COMPLETION : an APC was delivered
deriving DecidableEq, Repr

/-- What the environment does during one iteration of a wait loop. -/
structure WaitEnv where
  signaled : Bool     -- some thread sets the condvar event during the wait
  interrupted : Bool  -- an APC is delivered to the waiting thread
  now : Int           -- clock reading (ticks) on the condvar's clock basis
deriving DecidableEq, Repr

/-- Observable action performed by a condvar wait call. -/
inductive CondAct where
  | fixedSleep (ticks : Int)      -- the `msleep` in the null-handle branch
  | osWaitCall (delay : Option Nat)  -- OS wait; `none` models INFINITE
deriving DecidableEq, Repr

/-- Clock basis of a condition variable (`CLOCK_REALTIME` = 0 for
VLC_STATIC_COND, `CLOCK_MONOTONIC` otherwise). -/
inductive CondClock where
  | realtime
  | monotonic
deriving DecidableEq, Repr

/-- A condition variable: `handle` records whether `CreateEvent` ever ran
(`vlc_cond_init`); `flag` is the state of the manual-reset event. -/
structure CondVar where
  handle : Bool
  clock : CondClock
  flag : Bool
deriving DecidableEq, Repr

/-- C `ETIMEDOUT` errno value (any nonzero value; the back-end only ever
compares it against 0). -/
def ETIMEDOUT : Int := 110

/-- Model of the alertable OS wait on the manual-reset event: a set event
wins, else a pending APC interrupts the wait, else the wait expires when
the delay is finite and blocks forever (`none`) when it is INFINITE. -/
def osWait (flag : Bool) (delay : Option Nat) (intr : Bool) : Option WaitResult :=
  if flag then some .object0
  else if intr then some .ioCompletion
  else match delay with
       | some _ => some .timeout
       | none => none

/-- The retry loop shared by `vlc_cond_wait` and `vlc_cond_timedwait`:
repeat the OS wait while it reports `WAIT_IO_COMPLETION`.  `delayFn`
computes the delay for an iteration from the clock reading at its head
(`fun _ => none` for the INFINITE wait of `vlc_cond_wait`).  Returns the
event-flag state at exit, the final wait result, and the list of OS wait
calls that were made. -/
def waitLoop (delayFn : Int → Option Nat) :
    Bool → List WaitEnv → Option (Bool × WaitResult × List CondAct)
  | _, [] => none
  | flag, e :: es =>
      let flag' := flag || e.signaled
      let d := delayFn e.now
      match osWait flag' d e.interrupted with
      | none => none
      | some .ioCompletion =>
          (waitLoop delayFn flag' es).map
            (fun r => (r.1, r.2.1, .osWaitCall d :: r.2.2))
      | some r => some (flag', r, [.osWaitCall d])

/-- The delay computation of `vlc_cond_timedwait`: remaining ticks until
the deadline, divided by 1000 (C division truncates toward zero), clamped
below at 0 and above at `0x7fffffff`, as a `DWORD` millisecond count. -/
def twDelay (deadline now : Int) : Nat :=
  let total := Int.tdiv (deadline - now) 1000
  let total := if total < 0 then 0 else total
  (min total 0x7fffffff).toNat

/-- C `vlc_cond_broadcast`: no-op when the event handle is null, otherwise
`SetEvent` on the manual-reset event (wakes every current waiter). -/
def vlc_cond_broadcast (cv : CondVar) : CondVar :=
  if cv.handle = false then cv
  else { cv with flag := true }

/-- C `vlc_cond_signal`: no-op when the event handle is null, otherwise
delegates to `vlc_cond_broadcast` ("suboptimal but works"). -/
def vlc_cond_signal (cv : CondVar) : CondVar :=
  if cv.handle = false then cv
  else vlc_cond_broadcast cv

/-- C `vlc_cond_wait`: with a null event handle, `msleep (50000)` and
return; otherwise loop on the INFINITE OS wait while it reports
`WAIT_IO_COMPLETION`, then `ResetEvent` (clear the flag). -/
def vlc_cond_wait (cv : CondVar) (envs : List WaitEnv) :
    Option (CondVar × List CondAct) :=
  if cv.handle = false then some (cv, [.fixedSleep 50000])
  else (waitLoop (fun _ => none) cv.flag envs).map
        (fun r => ({ cv with flag := false }, r.2.2))

/-- C `vlc_cond_timedwait`: with a null event handle, `msleep (50000)` and
return 0; otherwise loop on the OS wait with the recomputed remaining
delay while it reports `WAIT_IO_COMPLETION`, then `ResetEvent` and return
0 when the final wait reported `WAIT_OBJECT_0`, `ETIMEDOUT` otherwise.
The `now` field of each `WaitEnv` is the clock reading the iteration
takes on the condvar's clock basis (`mdate ()` for the monotonic clock,
`CLOCK_FREQ * time (NULL)` for the realtime clock). -/
def vlc_cond_timedwait (cv : CondVar) (deadline : Int) (envs : List WaitEnv) :
    Option (CondVar × Int × List CondAct) :=
  if cv.handle = false then some (cv, 0, [.fixedSleep 50000])
  else (waitLoop (fun now => some (twDelay deadline now)) cv.flag envs).map
        (fun r => ({ cv with flag := false },
                   (if r.2.1 = .object0 then 0 else ETIMEDOUT), r.2.2))

/-! ### Thread-local storage registry -/

/-- A thread-local key (`struct vlc_threadvar`): the allocated OS slot id
and the optional destructor (identified by an opaque tag; the cleanup
properties below concern destructors that do not touch the registry). -/
structure TKey where
  id : Nat
  destroy : Option Nat
deriving DecidableEq, Repr

/-- C `vlc_threadvar_get` on the exiting thread's slot values. -/
def vlc_threadvar_get (vals : Nat → Option Nat) (key : TKey) : Option Nat :=
  vals key.id

/-- C `vlc_threadvar_set (key, NULL)` on the exiting thread's slot values. -/
def tvClear (vals : Nat → Option Nat) (i : Nat) : Nat → Option Nat :=
  fun j => if j = i then none else vals j

/-- C `ENOMEM` errno value. -/
def ENOMEM : Nat := 12

/-- C `EAGAIN` errno value. -/
def EAGAIN : Nat := 11

/-- C `vlc_threadvar_set`: `return TlsSetValue (key->id, value) ? ENOMEM : 0;`
`osSetOk` is the boolean success report of the OS slot store
(`TlsSetValue` returns nonzero on success, zero on failure). -/
def vlc_threadvar_set (osSetOk : Bool) : Nat :=
  if osSetOk then ENOMEM else 0

/-- C `vlc_threadvar_create`, reduced to its return value: `errnoVal` when
`malloc` fails, `EAGAIN` when `TlsAlloc` reports `TLS_OUT_OF_INDEXES`,
0 on success. -/
def vlc_threadvar_create (mallocOk tlsAllocOk : Bool) (errnoVal : Nat) : Nat :=
  if ¬ mallocOk then errnoVal
  else if ¬ tlsAllocOk then EAGAIN
  else 0

/-- One pass of the `for (key = vlc_threadvar_last; ...; key = key->prev)`
scan of `vlc_thread_cleanup`: find the first key (in scan order, newest
first) whose value is non-null and whose destructor is non-null.  `keys`
is the registry sequence in scan order. -/
def scanOnce (keys : List TKey) (vals : Nat → Option Nat) : Option (TKey × Nat) :=
  match keys with
  | [] => none
  | k :: rest =>
      match vals k.id, k.destroy with
      | some v, some _ => some (k, v)
      | _, _ => scanOnce rest vals

/-- One recorded destructor invocation during thread cleanup: the key's
slot id, the value passed to the destructor, and what the slot held at
the moment of the call (the code clears the slot before calling). -/
structure DCall where
  key : Nat
  arg : Nat
  storedAtCall : Option Nat
deriving DecidableEq, Repr

/-- The `retry` loop of `vlc_thread_cleanup`: scan the registry for a key
with a non-null value and a destructor; if found, clear the value, call
the destructor, and restart the scan from the head; stop when a full scan
finds nothing.  Fuel-indexed (each retry clears one slot, so any fuel
larger than the number of pending slots suffices); returns the ordered
list of destructor invocations and the final slot values. -/
def cleanupLoop : Nat → List TKey → (Nat → Option Nat) →
    Option (List DCall × (Nat → Option Nat))
  | 0, _, _ => none
  | fuel + 1, keys, vals =>
      match scanOnce keys vals with
      | none => some ([], vals)
      | some (k, v) =>
          let vals' := tvClear vals k.id
          (cleanupLoop fuel keys vals').map
            (fun r => (⟨k.id, v, vals' k.id⟩ :: r.1, r.2))

/-- The destructor invocations thread exit is documented to perform: one per key (in scan
order) whose value is non-null and whose destructor is non-null. -/
def pendingCalls (keys : List TKey) (vals : Nat → Option Nat) : List (Nat × Nat) :=
  keys.filterMap (fun k =>
    match vals k.id, k.destroy with
    | some v, some _ => some (k.id, v)
    | _, _ => none)

/-! ### Threads and cancellation -/

/-- Per-thread record (`struct vlc_thread`), minus the OS handle and the
entry point: cleanup handlers are identified by opaque tags, the stored
result is an optional value (`none` models `NULL`). -/
structure VThread where
  detached : Bool
  killable : Bool
  killed : Bool
  cleaners : List Nat
  data : Option Nat
deriving DecidableEq, Repr

/-- C `vlc_thread_cleanup`: drain the registry's destructors for the
exiting thread, then free the record if detached (`none`), else keep it
for `vlc_join`. -/
def vlc_thread_cleanup (t : VThread) (keys : List TKey)
    (vals : Nat → Option Nat) (fuel : Nat) :
    Option (List DCall × (Nat → Option Nat)) × Option VThread :=
  (cleanupLoop fuel keys vals, if t.detached then none else some t)

/-- The tail of `vlc_entry` after the user entry function returned
`result`: store the result, then run `vlc_thread_cleanup` — the normal
exit teardown. -/
def vlc_entry_exit (t : VThread) (result : Option Nat) (keys : List TKey)
    (vals : Nat → Option Nat) (fuel : Nat) :
    Option (List DCall × (Nat → Option Nat)) × Option VThread :=
  vlc_thread_cleanup { t with data := result } keys vals fuel

/-- Outcome of `vlc_testcancel`: either the call returns to its caller
with the (unchanged) thread state, or the thread terminates
(`_endthreadex`), having run the listed cleanup handlers in order, with
the given TLS teardown and surviving record. -/
inductive TCOutcome where
  | returns (th : Option VThread)
  | terminated (ran : List Nat)
      (tls : Option (List DCall × (Nat → Option Nat)))
      (record : Option VThread)

/-- C `vlc_testcancel`: a thread with no record (main thread) returns at
once; a worker returns unchanged unless `killable && killed`, in which
case it runs the cleanup-handler stack from the head (most recently
pushed first), clears `th->data`, runs `vlc_thread_cleanup`, and calls
`_endthreadex` — it never returns. -/
def vlc_testcancel (th : Option VThread) (keys : List TKey)
    (vals : Nat → Option Nat) (fuel : Nat) : TCOutcome :=
  match th with
  | none => .returns none
  | some t =>
      if t.killable && t.killed then
        let t' := { t with data := none }
        let r := vlc_thread_cleanup t' keys vals fuel
        .terminated t.cleaners r.1 r.2
      else .returns (some t)

/-- Commands of `vlc_control_cancel` relevant to the cleanup stack. -/
inductive CancelCmd where
  | push (h : Nat)
  | pop
deriving DecidableEq, Repr

/-- C `vlc_control_cancel`: no-op for a thread with no record;
`VLC_CLEANUP_PUSH` links the caller-provided node at the head of the
stack, `VLC_CLEANUP_POP` unlinks the head. -/
def vlc_control_cancel (th : Option VThread) (cmd : CancelCmd) : Option VThread :=
  match th with
  | none => none
  | some t =>
      match cmd with
      | .push h => some { t with cleaners := h :: t.cleaners }
      | .pop => some { t with cleaners := t.cleaners.tail }

/-- Push a list of handlers in order (each later element pushed later). -/
def pushAll (th : Option VThread) (hs : List Nat) : Option VThread :=
  hs.foldl (fun t h => vlc_control_cancel t (.push h)) th

/-- C `vlc_savecancel`: returns the previous `killable` flag and disables
cancellability; `false` for a thread with no record (main thread). -/
def vlc_savecancel (th : Option VThread) : Option VThread × Bool :=
  match th with
  | none => (none, false)
  | some t => (some { t with killable := false }, t.killable)

/-- C `vlc_restorecancel`: asserts the thread is currently not killable,
then restores the saved flag; no-op for a thread with no record.  `none`
models the assertion firing. -/
def vlc_restorecancel (th : Option VThread) (state : Bool) :
    Option (Option VThread) :=
  match th with
  | none => some none
  | some t =>
      if t.killable then none
      else some (some { t with killable := state })

/-! ### Read-write locks -/

/-- C `ULONG_MAX` for 32-bit Win32 `unsigned long`. -/
def ULONG_MAX : Nat := 2 ^ 32 - 1

/-- Read-write lock state: `readers` is the active reader count, `writer`
the thread id of the active writer, 0 meaning none (Win32 thread ids are
never 0). -/
structure RwState where
  readers : Nat
  writer : Nat
deriving DecidableEq, Repr

/-- C `vlc_rwlock_init`: no readers, no writer. -/
def vlc_rwlock_init : RwState := ⟨0, 0⟩

/-- Outcome of one rwlock operation: it completes with a new state, or is
still blocked in its wait loop, or aborts (`abort ()`), or trips an
assertion. -/
inductive RwOutcome where
  | ok (s : RwState)
  | blocked
  | aborted
  | assertFail
deriving DecidableEq, Repr

/-- The five public rwlock operations; lock/unlock of the internal mutex
and the condvar wait are represented by the enabling conditions under
which each wait loop exits. -/
inductive RwOp where
  | rdlock
  | rdunlock
  | wrlock (tid : Nat)
  | wrunlock (tid : Nat)
  | unlock (tid : Nat)
deriving DecidableEq, Repr

/-- C `vlc_rwlock_rdlock`: wait while a writer is active (asserting
`readers == 0` then); abort instead of wrapping the reader count at
`ULONG_MAX`; otherwise increment `readers`. -/
def vlc_rwlock_rdlock (s : RwState) : RwOutcome :=
  if s.writer ≠ 0 then
    if s.readers = 0 then .blocked else .assertFail
  else if s.readers = ULONG_MAX then .aborted
  else .ok { s with readers := s.readers + 1 }

/-- C `vlc_rwlock_rdunlock`: assert `readers > 0`, decrement, signalling
the condvar when the count reaches 0. -/
def vlc_rwlock_rdunlock (s : RwState) : RwOutcome :=
  if s.readers = 0 then .assertFail
  else .ok { s with readers := s.readers - 1 }

/-- C `vlc_rwlock_wrlock`: wait while anybody holds the lock either way,
then record the calling thread as writer. -/
def vlc_rwlock_wrlock (tid : Nat) (s : RwState) : RwOutcome :=
  if s.readers > 0 ∨ s.writer ≠ 0 then .blocked
  else .ok { s with writer := tid }

/-- C `vlc_rwlock_wrunlock`: assert the caller is the writer and no reader
is active, clear the writer, broadcast. -/
def vlc_rwlock_wrunlock (tid : Nat) (s : RwState) : RwOutcome :=
  if s.writer ≠ tid then .assertFail
  else if s.readers ≠ 0 then .assertFail
  else .ok { s with writer := 0 }

/-- C `vlc_rwlock_unlock`: infer read vs write unlock from `lock->writer`. -/
def vlc_rwlock_unlock (tid : Nat) (s : RwState) : RwOutcome :=
  if s.writer ≠ 0 then vlc_rwlock_wrunlock tid s
  else vlc_rwlock_rdunlock s

/-- Dispatch one rwlock operation. -/
def rwApply (op : RwOp) (s : RwState) : RwOutcome :=
  match op with
  | .rdlock => vlc_rwlock_rdlock s
  | .rdunlock => vlc_rwlock_rdunlock s
  | .wrlock tid => vlc_rwlock_wrlock tid s
  | .wrunlock tid => vlc_rwlock_wrunlock tid s
  | .unlock tid => vlc_rwlock_unlock tid s

/-- An operation is issued by a real thread: `GetCurrentThreadId` never
returns 0, so any tid parameter is nonzero. -/
def rwTidOk (op : RwOp) : Prop :=
  match op with
  | .wrlock tid => tid ≠ 0
  | .wrunlock tid => tid ≠ 0
  | .unlock tid => tid ≠ 0
  | _ => True

/-- States reachable from `vlc_rwlock_init` by completed operations. -/
inductive RwReach : RwState → Prop where
  | init : RwReach vlc_rwlock_init
  | step {s s' : RwState} {op : RwOp} : RwReach s → rwTidOk op →
      rwApply op s = .ok s' → RwReach s'

/-- The documented invariant: an active writer excludes readers and
vice versa. -/
def RwInv (s : RwState) : Prop :=
  (s.writer ≠ 0 → s.readers = 0) ∧ (s.readers > 0 → s.writer = 0)

/-! ### Timers -/

/-- Reduction of a signed 64-bit C value to a Win32 `DWORD`. -/
def toDWORD (x : Int) : Nat := (Int.emod x (2 ^ 32)).toNat

/-- A timer: `armed = some (due, period)` models a live timer-queue
registration with those `DWORD` millisecond parameters, `none` a
disarmed timer (`handle == INVALID_HANDLE_VALUE`). -/
structure Timer where
  armed : Option (Nat × Nat)
deriving DecidableEq, Repr

/-- C `vlc_timer_create`: the new timer is disarmed. -/
def vlc_timer_create : Timer := ⟨none⟩

/-- C `vlc_timer_schedule`: always cancel any prior registration; disarm
and return when `value == 0`; otherwise convert the first-fire time
(made relative by subtracting `mdate ()`, here `now`, in absolute mode)
and the interval from ticks (µs) to ms via `(x + 999) / 1000` (C
truncating division) and register them (implicit `int64 → DWORD`
conversions at the `CreateTimerQueueTimer` call). -/
def vlc_timer_schedule (absolute : Bool) (value interval : Int)
    (now : Int) : Timer :=
  if value = 0 then ⟨none⟩
  else
    let v := if absolute then value - now else value
    let v := Int.tdiv (v + 999) 1000
    let i := Int.tdiv (interval + 999) 1000
    ⟨some (toDWORD v, toDWORD i)⟩

/-- Mathematical ceiling division on `Int` (for a positive divisor). -/
def ceilDiv (a b : Int) : Int := -(Int.fdiv (-a) b)

/-! ## Helper lemmas -/

/-- A deadline at or before the current clock reading yields a zero OS
delay in `vlc_cond_timedwait`. -/
theorem twDelay_eq_zero_of_past (deadline now : Int) (h : deadline ≤ now) :
    twDelay deadline now = 0 := by
  have h1 : (deadline - now).tdiv 1000 ≤ 0 := by
    have h2 : deadline - now = -(now - deadline) := by ring
    have h3 : (0 : Int) ≤ (now - deadline).tdiv 1000 :=
      Int.tdiv_nonneg (by omega) (by norm_num)
    rw [h2, Int.neg_tdiv]
    omega
  have h4 : (if (deadline - now).tdiv 1000 < 0 then 0
             else (deadline - now).tdiv 1000) = 0 := by
    split <;> omega
  simp only [twDelay]
  rw [h4]
  decide

/-- The retry loop only exits on `WAIT_OBJECT_0` or `WAIT_TIMEOUT`, never
on `WAIT_IO_COMPLETION`. -/
theorem waitLoop_no_ioCompletion (delayFn : Int → Option Nat) :
    ∀ (envs : List WaitEnv) (flag f : Bool) (r : WaitResult) (acts : List CondAct),
      waitLoop delayFn flag envs = some (f, r, acts) → r ≠ .ioCompletion := by
  intro envs
  induction envs with
  | nil => intro flag f r acts h; simp [waitLoop] at h
  | cons e es ih =>
      intro flag f r acts h
      unfold waitLoop at h
      rcases hw : osWait (flag || e.signaled) (delayFn e.now) e.interrupted with _ | res
      · simp only [hw] at h
        exact Option.noConfusion h
      · simp only [hw] at h
        cases res with
        | ioCompletion =>
            simp only [Option.map_eq_some'] at h
            obtain ⟨⟨f', r', acts'⟩, h1, h2⟩ := h
            have h3 := ih _ _ _ _ h1
            cases h2
            exact h3
        | object0 =>
            rw [Option.some_inj] at h
            cases h
            simp
        | timeout =>
            rw [Option.some_inj] at h
            cases h
            simp

/-- One completed rwlock operation preserves the reader/writer exclusion
invariant. -/
theorem rwApply_preserves_inv {s s' : RwState} {op : RwOp}
    (hinv : RwInv s) (htid : rwTidOk op) (h : rwApply op s = .ok s') : RwInv s' := by
  obtain ⟨h1, h2⟩ := hinv
  rcases s with ⟨rd, wr⟩
  cases op <;>
    simp only [rwApply, vlc_rwlock_rdlock, vlc_rwlock_rdunlock, vlc_rwlock_wrlock,
      vlc_rwlock_wrunlock, vlc_rwlock_unlock, rwTidOk] at htid h <;>
    (repeat' split at h) <;>
    first
      | exact RwOutcome.noConfusion h
      | (injection h with h; subst h;
         refine ⟨fun hx => ?_, fun hx => ?_⟩ <;> simp_all)

/-- Pushing a list of cleanup handlers in order leaves the stack holding
them in reverse push order (most recently pushed at the head). -/
theorem pushAll_cleaners (hs : List Nat) :
    ∀ t : VThread, pushAll (some t) hs =
      some { t with cleaners := hs.reverse ++ t.cleaners } := by
  induction hs with
  | nil => intro t; rfl
  | cons h0 rest ih =>
      intro t
      simp only [pushAll, List.foldl_cons] at *
      rw [show vlc_control_cancel (some t) (.push h0) =
            some { t with cleaners := h0 :: t.cleaners } from rfl]
      rw [ih]
      simp

/-- Unfolding `pendingCalls` over the head key of the registry. -/
theorem pendingCalls_cons (k : TKey) (rest : List TKey) (vals : Nat → Option Nat) :
    pendingCalls (k :: rest) vals =
      (match vals k.id, k.destroy with
       | some v, some _ => [(k.id, v)]
       | _, _ => []) ++ pendingCalls rest vals := by
  rcases hv : vals k.id with _ | v <;> rcases hd : k.destroy with _ | d <;>
    simp [pendingCalls, hv, hd]

/-- A scan finds nothing exactly when no destructor invocation is pending. -/
theorem scanOnce_none_iff (vals : Nat → Option Nat) :
    ∀ keys : List TKey, scanOnce keys vals = none ↔ pendingCalls keys vals = [] := by
  intro keys
  induction keys with
  | nil => simp [scanOnce, pendingCalls]
  | cons k0 rest ih =>
      rw [pendingCalls_cons]
      rcases hv : vals k0.id with _ | v <;> rcases hd : k0.destroy with _ | d <;>
        simp only [scanOnce, hv, hd, List.nil_append] <;>
        simp [ih]

/-- What a successful scan guarantees about the key it found. -/
theorem scanOnce_some_spec (vals : Nat → Option Nat) :
    ∀ (keys : List TKey) (k : TKey) (v : Nat), scanOnce keys vals = some (k, v) →
      k ∈ keys ∧ vals k.id = some v ∧ k.destroy.isSome := by
  intro keys
  induction keys with
  | nil => intro k v h; simp [scanOnce] at h
  | cons k0 rest ih =>
      intro k v h
      rcases hv : vals k0.id with _ | v0 <;> rcases hd : k0.destroy with _ | d0 <;>
        simp only [scanOnce, hv, hd] at h
      · obtain ⟨h1, h2, h3⟩ := ih k v h
        exact ⟨List.mem_cons_of_mem _ h1, h2, h3⟩
      · obtain ⟨h1, h2, h3⟩ := ih k v h
        exact ⟨List.mem_cons_of_mem _ h1, h2, h3⟩
      · obtain ⟨h1, h2, h3⟩ := ih k v h
        exact ⟨List.mem_cons_of_mem _ h1, h2, h3⟩
      · have h9 := Option.some_inj.mp h
        injection h9 with h1 h2
        subst h1 h2
        exact ⟨List.mem_cons_self _ _, hv, by simp [hd]⟩

/-- Clearing a slot id that no key of the list uses does not change the
pending destructor invocations. -/
theorem pendingCalls_clear_notin (vals : Nat → Option Nat) (i : Nat) :
    ∀ keys : List TKey, (∀ k ∈ keys, k.id ≠ i) →
      pendingCalls keys (tvClear vals i) = pendingCalls keys vals := by
  intro keys
  induction keys with
  | nil => intro _; rfl
  | cons k0 rest ih =>
      intro hne
      have h0 : k0.id ≠ i := hne k0 (List.mem_cons_self _ _)
      have hv : tvClear vals i k0.id = vals k0.id := by simp [tvClear, h0]
      rw [pendingCalls_cons, pendingCalls_cons, hv,
          ih (fun k hk => hne k (List.mem_cons_of_mem _ hk))]

/-- Every pending invocation carries the value currently stored in its
key's slot. -/
theorem pendingCalls_mem_val (vals : Nat → Option Nat) :
    ∀ (keys : List TKey) (i x : Nat), (i, x) ∈ pendingCalls keys vals →
      vals i = some x := by
  intro keys
  induction keys with
  | nil => intro i x h; simp [pendingCalls] at h
  | cons k0 rest ih =>
      intro i x h
      rw [pendingCalls_cons] at h
      rcases hv : vals k0.id with _ | v0 <;> rcases hd : k0.destroy with _ | d0 <;>
        simp only [hv, hd, List.nil_append, List.cons_append, List.mem_cons] at h
      · exact ih i x h
      · exact ih i x h
      · exact ih i x h
      · rcases h with h | h
        · obtain ⟨h1, h2⟩ := Prod.mk.injEq .. ▸ h
          subst h1 h2
          exact hv
        · exact ih i x h

/-- When nothing is pending, every key with a destructor has a null value. -/
theorem pendingCalls_nil_clear (vals : Nat → Option Nat) :
    ∀ keys : List TKey, pendingCalls keys vals = [] →
      ∀ k ∈ keys, k.destroy.isSome → vals k.id = none := by
  intro keys
  induction keys with
  | nil => intro _ k hk; simp at hk
  | cons k0 rest ih =>
      intro hnil k hk hds
      rw [pendingCalls_cons] at hnil
      rcases List.mem_cons.mp hk with hk0 | hk2
      · rw [hk0]
        rw [hk0] at hds
        rcases hv : vals k0.id with _ | v
        · rfl
        · rcases hd : k0.destroy with _ | d
          · rw [hd] at hds; simp at hds
          · rw [hv, hd] at hnil; simp at hnil
      · exact ih (List.append_eq_nil.mp hnil).2 k hk2 hds

/-- Clearing the slot found by a scan removes exactly the head of the
pending invocation list (slot ids being distinct). -/
theorem scanOnce_pending_step (vals : Nat → Option Nat) :
    ∀ (keys : List TKey) (k : TKey) (v : Nat), (keys.map TKey.id).Nodup →
      scanOnce keys vals = some (k, v) →
      pendingCalls keys vals = (k.id, v) :: pendingCalls keys (tvClear vals k.id) := by
  intro keys
  induction keys with
  | nil => intro k v _ h; simp [scanOnce] at h
  | cons k0 rest ih =>
      intro k v hnd h
      rw [List.map_cons, List.nodup_cons] at hnd
      obtain ⟨hnd0, hndr⟩ := hnd
      rcases hv : vals k0.id with _ | v0 <;> rcases hd : k0.destroy with _ | d0 <;>
        simp only [scanOnce, hv, hd] at h
      case' cons.intro.none.none | cons.intro.none.some | cons.intro.some.none =>
        obtain ⟨hkmem, hkval, hkd⟩ := scanOnce_some_spec vals rest k v h
        have hk0ne : k0.id ≠ k.id := by
          intro he
          exact hnd0 (he ▸ List.mem_map_of_mem TKey.id hkmem)
        have hcv : tvClear vals k.id k0.id = vals k0.id := by
          simp [tvClear, hk0ne]
        rw [pendingCalls_cons, pendingCalls_cons, hcv, ih k v hndr h]
        simp [hv, hd]
      case cons.intro.some.some =>
        have h9 := Option.some_inj.mp h
        injection h9 with h1 h2
        subst h1 h2
        rw [pendingCalls_cons, pendingCalls_cons,
            pendingCalls_clear_notin vals k0.id rest
              (fun k hk he => hnd0 (he ▸ List.mem_map_of_mem TKey.id hk))]
        simp [hv, hd, tvClear]

/-- When the cleanup loop returns, the final full scan found nothing. -/
theorem cleanupLoop_final_scan (keys : List TKey) :
    ∀ (fuel : Nat) (vals : Nat → Option Nat) (calls : List DCall)
      (vend : Nat → Option Nat),
      cleanupLoop fuel keys vals = some (calls, vend) → scanOnce keys vend = none := by
  intro fuel
  induction fuel with
  | zero => intro vals calls vend h; simp [cleanupLoop] at h
  | succ n ih =>
      intro vals calls vend h
      unfold cleanupLoop at h
      rcases hs : scanOnce keys vals with _ | ⟨k, v⟩
      · simp only [hs, Option.some_inj] at h
        injection h with h1 h2
        subst h2
        exact hs
      · simp only [hs, Option.map_eq_some'] at h
        obtain ⟨⟨calls', vend'⟩, h1, h2⟩ := h
        injection h2 with h2a h2b
        subst h2b
        exact ih _ _ _ h1

/-- For a nonnegative tick count, the C expression `(t + 999) / 1000`
(truncating division) computes the ceiling of `t / 1000`. -/
theorem tdiv_add999_eq_ceilDiv (a : Int) (ha : 0 ≤ a) :
    Int.tdiv (a + 999) 1000 = ceilDiv a 1000 := by
  unfold ceilDiv
  rw [Int.tdiv_eq_ediv (by omega) (by norm_num), Int.fdiv_eq_ediv _ (by norm_num)]
  omega

/-- The `int64 → DWORD` conversion is the identity on `[0, 2^32)`. -/
theorem toDWORD_of_small (x : Int) (h0 : 0 ≤ x) (hlt : x < 2 ^ 32) :
    toDWORD x = x.toNat := by
  unfold toDWORD
  rw [show Int.emod x (2 ^ 32) = x % 2 ^ 32 from rfl]
  omega

/-- Bounds on the millisecond ceiling of a tick count in
`[0, 1000 * (2^32 - 1)]`, including that the ceiling never undershoots. -/
theorem ceilDiv_thousand_spec (a : Int) (h0 : 0 ≤ a) (hb : a ≤ 1000 * (2 ^ 32 - 1)) :
    0 ≤ ceilDiv a 1000 ∧ ceilDiv a 1000 < 2 ^ 32 ∧ a ≤ 1000 * ceilDiv a 1000 := by
  unfold ceilDiv
  rw [Int.fdiv_eq_ediv _ (by norm_num)]
  omega

/-! ## Main theorems -/

/-- C1: for a condition variable with a created wake event (and the
caller holding the mutex, which the call releases and reacquires around
the OS wait), `vlc_cond_timedwait` with a deadline at or before the
current clock reading computes a zero delay (so the OS wait cannot
block) and, with the wake flag clear and no interference, returns
`ETIMEDOUT` at once after a single zero-delay wait; in general the call
returns `ETIMEDOUT` exactly when the final OS wait reported expiry and 0
(signaled) otherwise, and always clears the wake flag on exit. -/
theorem vlc_cond_timedwait_past_deadline_spec (cv : CondVar) (hh : cv.handle = true) :
    (∀ deadline now : Int, deadline ≤ now → twDelay deadline now = 0) ∧
    (∀ (deadline now : Int) (rest : List WaitEnv), deadline ≤ now → cv.flag = false →
       vlc_cond_timedwait cv deadline (⟨false, false, now⟩ :: rest) =
         some ({ cv with flag := false }, ETIMEDOUT, [.osWaitCall (some 0)])) ∧
    (∀ (deadline : Int) (envs : List WaitEnv) (cv' : CondVar) (code : Int)
       (acts : List CondAct),
       vlc_cond_timedwait cv deadline envs = some (cv', code, acts) →
         cv'.flag = false ∧ (code = 0 ∨ code = ETIMEDOUT) ∧
         (code = ETIMEDOUT ↔ ∃ (f : Bool) (acts' : List CondAct),
            waitLoop (fun now => some (twDelay deadline now)) cv.flag envs =
              some (f, .timeout, acts'))) := by
  refine ⟨twDelay_eq_zero_of_past, ?_, ?_⟩
  · intro deadline now rest hle hflag
    simp [vlc_cond_timedwait, waitLoop, osWait, hh, hflag,
          twDelay_eq_zero_of_past deadline now hle, ETIMEDOUT]
  · intro deadline envs cv' code acts h
    rcases hw : waitLoop (fun now => some (twDelay deadline now)) cv.flag envs with
      _ | ⟨f0, r, a0⟩
    · simp [vlc_cond_timedwait, hh, hw] at h
    · simp only [vlc_cond_timedwait, hh, Bool.true_eq_false, if_false, hw,
        Option.map_some', Option.some_inj, Prod.mk.injEq] at h
      obtain ⟨h1, h2, h3⟩ := h
      subst h1 h2 h3
      refine ⟨rfl, ?_, ?_⟩
      · cases r <;> simp [ETIMEDOUT]
      · constructor
        · intro hc
          have hnio := waitLoop_no_ioCompletion _ _ _ _ _ _ hw
          have hr : r = WaitResult.timeout := by
            cases r
            · simp [ETIMEDOUT] at hc
            · rfl
            · exact absurd rfl hnio
          exact ⟨f0, a0, by rw [hr]⟩
        · rintro ⟨f, acts', hw2⟩
          have h9 := Option.some_inj.mp hw2
          injection h9 with hf hrest
          injection hrest with hr hacts
          subst hr
          simp

/-- Witness for C1: a monotonic condvar with clear flag, deadline 0,
clock reading 5, no signal and no interruption: one zero-delay OS wait,
then `ETIMEDOUT`. -/
theorem vlc_cond_timedwait_past_deadline_witness :
    vlc_cond_timedwait ⟨true, .monotonic, false⟩ 0 [⟨false, false, 5⟩] =
      some (⟨true, .monotonic, false⟩, ETIMEDOUT, [.osWaitCall (some 0)]) :=
  (vlc_cond_timedwait_past_deadline_spec ⟨true, .monotonic, false⟩ rfl).2.1
    0 5 [] (by decide) rfl

/-- C2: at a cancellation point (`vlc_testcancel`), a worker thread with
`killable && killed` runs the cleanup-handler stack from its head (the
most recently pushed handler first, as the last conjunct shows for a
stack built by pushes), clears the stored result, performs the same TLS
teardown as the normal-exit path (`vlc_entry`, whose teardown is the same
`cleanupLoop`), and terminates — the outcome is `terminated`, never
`returns`; with either flag false, or for a thread with no record, the
call returns with the state unchanged. -/
theorem vlc_testcancel_spec :
    (∀ (t : VThread) (keys : List TKey) (vals : Nat → Option Nat) (fuel : Nat),
       t.killable = true → t.killed = true →
       (vlc_testcancel (some t) keys vals fuel =
          .terminated t.cleaners (cleanupLoop fuel keys vals)
            (if t.detached then none else some { t with data := none }) ∧
        ∀ th', vlc_testcancel (some t) keys vals fuel ≠ .returns th')) ∧
    (∀ (t : VThread) (keys : List TKey) (vals : Nat → Option Nat) (fuel : Nat),
       (t.killable && t.killed) = false →
       vlc_testcancel (some t) keys vals fuel = .returns (some t)) ∧
    (∀ (keys : List TKey) (vals : Nat → Option Nat) (fuel : Nat),
       vlc_testcancel none keys vals fuel = .returns none) ∧
    (∀ (t : VThread) (r : Option Nat) (keys : List TKey) (vals : Nat → Option Nat)
       (fuel : Nat), (vlc_entry_exit t r keys vals fuel).1 = cleanupLoop fuel keys vals) ∧
    (∀ (t : VThread) (hs : List Nat),
       pushAll (some t) hs = some { t with cleaners := hs.reverse ++ t.cleaners }) := by
  refine ⟨?_, ?_, ?_, ?_, ?_⟩
  · intro t keys vals fuel hk hkl
    constructor
    · simp [vlc_testcancel, vlc_thread_cleanup, hk, hkl]
    · intro th' hcontra
      simp [vlc_testcancel, vlc_thread_cleanup, hk, hkl] at hcontra
  · intro t keys vals fuel hfalse
    simp [vlc_testcancel, hfalse]
  · intro keys vals fuel; rfl
  · intro t r keys vals fuel; rfl
  · exact fun t hs => pushAll_cleaners hs t

/-- Witness for C2: a cancellable, cancelled, joinable thread with
handlers pushed as 1 then 2 terminates having run 2 before 1 with its
result cleared; with `killed = false` the call returns unchanged. -/
theorem vlc_testcancel_witness :
    vlc_testcancel (some ⟨false, true, true, [2, 1], some 5⟩) [] (fun _ => none) 1 =
      .terminated [2, 1] (cleanupLoop 1 [] (fun _ => none))
        (some ⟨false, true, true, [2, 1], none⟩) ∧
    vlc_testcancel (some ⟨false, true, false, [2, 1], some 5⟩) [] (fun _ => none) 1 =
      .returns (some ⟨false, true, false, [2, 1], some 5⟩) :=
  ⟨(vlc_testcancel_spec.1 ⟨false, true, true, [2, 1], some 5⟩ [] (fun _ => none) 1
      rfl rfl).1,
   vlc_testcancel_spec.2.1 ⟨false, true, false, [2, 1], some 5⟩ [] (fun _ => none) 1 rfl⟩

/-- C3: `vlc_cond_signal` and `vlc_cond_broadcast` are equal as functions
on condvar state — signal delegates to broadcast, which sets the
manual-reset wake flag (waking every current waiter); there is no
single-waiter wakeup. -/
theorem vlc_cond_signal_eq_broadcast :
    ∀ cv : CondVar, vlc_cond_signal cv = vlc_cond_broadcast cv := by
  intro cv
  unfold vlc_cond_signal vlc_cond_broadcast
  by_cases h : cv.handle = false <;> simp [h]

/-- C4: when a worker thread exits, the TLS cleanup loop (with fuel
exceeding the number of pending non-null values, which is how the
restart-on-mutation scan terminates) invokes exactly the destructors of
the keys whose value is non-null (and which have a destructor), each
exactly once (the invoked slot ids are distinct), with the thread's slot
already cleared to null at the moment each destructor runs; afterwards
every destructor key's value is null and a final full scan finds nothing
left. -/
theorem vlc_thread_cleanup_tls_spec (keys : List TKey) :
    ∀ (fuel : Nat) (vals : Nat → Option Nat),
      (keys.map TKey.id).Nodup → (pendingCalls keys vals).length < fuel →
      ∃ (calls : List DCall) (vend : Nat → Option Nat),
        cleanupLoop fuel keys vals = some (calls, vend) ∧
        calls.map (fun c => (c.key, c.arg)) = pendingCalls keys vals ∧
        (calls.map DCall.key).Nodup ∧
        (∀ c ∈ calls, c.storedAtCall = none) ∧
        (∀ k ∈ keys, k.destroy.isSome → vend k.id = none) ∧
        scanOnce keys vend = none := by
  intro fuel
  induction fuel with
  | zero => intro vals hnd hlen; omega
  | succ n ih =>
      intro vals hnd hlen
      rcases hs : scanOnce keys vals with _ | ⟨k, v⟩
      · have hpend : pendingCalls keys vals = [] := (scanOnce_none_iff vals keys).mp hs
        refine ⟨[], vals, ?_, by simp [hpend], by simp, by simp,
                pendingCalls_nil_clear vals keys hpend, hs⟩
        unfold cleanupLoop
        rw [hs]
      · have hstep := scanOnce_pending_step vals keys k v hnd hs
        have hlen' : (pendingCalls keys (tvClear vals k.id)).length < n := by
          rw [hstep] at hlen
          simpa using hlen
        obtain ⟨calls', vend, hloop, hmap, hnodup, hstored, hvend, hfinal⟩ :=
          ih (tvClear vals k.id) hnd hlen'
        have hnotin : k.id ∉ calls'.map DCall.key := by
          intro hmem
          rw [List.mem_map] at hmem
          obtain ⟨c, hc, hck⟩ := hmem
          have hpair : (c.key, c.arg) ∈ pendingCalls keys (tvClear vals k.id) := by
            rw [← hmap]
            exact List.mem_map_of_mem _ hc
          have := pendingCalls_mem_val _ keys c.key c.arg hpair
          rw [hck] at this
          simp [tvClear] at this
        refine ⟨⟨k.id, v, tvClear vals k.id k.id⟩ :: calls', vend, ?_, ?_, ?_, ?_,
                hvend, hfinal⟩
        · unfold cleanupLoop
          rw [hs]
          simp only [hloop, Option.map_some']
        · simp only [List.map_cons, hmap, hstep]
        · simp only [List.map_cons, List.nodup_cons]
          exact ⟨hnotin, hnodup⟩
        · intro c hc
          rcases List.mem_cons.mp hc with hc0 | hc2
          · rw [hc0]
            simp [tvClear]
          · exact hstored c hc2

/-- Witness for C4: two keys with destructors holding values 41 and 40;
the loop with fuel 3 performs both destructor calls exactly once (slots
cleared first) and ends with a clean scan. -/
theorem vlc_thread_cleanup_tls_witness :
    ∃ (calls : List DCall) (vend : Nat → Option Nat),
      cleanupLoop 3 ([⟨1, some 7⟩, ⟨0, some 8⟩] : List TKey)
          (fun j => if j = 0 then some 40 else if j = 1 then some 41 else none) =
        some (calls, vend) ∧
      calls.map (fun c => (c.key, c.arg)) =
        pendingCalls ([⟨1, some 7⟩, ⟨0, some 8⟩] : List TKey)
          (fun j => if j = 0 then some 40 else if j = 1 then some 41 else none) ∧
      (calls.map DCall.key).Nodup ∧
      (∀ c ∈ calls, c.storedAtCall = none) ∧
      (∀ k ∈ ([⟨1, some 7⟩, ⟨0, some 8⟩] : List TKey),
         k.destroy.isSome → vend k.id = none) ∧
      scanOnce ([⟨1, some 7⟩, ⟨0, some 8⟩] : List TKey) vend = none :=
  vlc_thread_cleanup_tls_spec ([⟨1, some 7⟩, ⟨0, some 8⟩] : List TKey) 3
    (fun j => if j = 0 then some 40 else if j = 1 then some 41 else none)
    (by decide) (by decide)

/-- C5: every state reachable from `vlc_rwlock_init` by completed
read-lock / read-unlock / write-lock / write-unlock / polymorphic-unlock
operations satisfies the invariant that an active writer implies zero
readers and active readers imply no writer, and every completed operation
preserves the invariant. -/
theorem vlc_rwlock_invariant_spec :
    (∀ s : RwState, RwReach s → RwInv s) ∧
    (∀ (s s' : RwState) (op : RwOp),
       RwInv s → rwTidOk op → rwApply op s = .ok s' → RwInv s') := by
  constructor
  · intro s h
    induction h with
    | init => exact ⟨fun _ => rfl, fun h => absurd h (by simp [vlc_rwlock_init])⟩
    | step hr htid happ ih => exact rwApply_preserves_inv ih htid happ
  · exact fun s s' op hinv htid happ => rwApply_preserves_inv hinv htid happ

/-- Witness for C5: the initial state satisfies the invariant, and one
completed read-lock step from it preserves it. -/
theorem vlc_rwlock_invariant_witness : RwInv vlc_rwlock_init ∧ RwInv ⟨1, 0⟩ :=
  ⟨vlc_rwlock_invariant_spec.1 _ RwReach.init,
   vlc_rwlock_invariant_spec.2 ⟨0, 0⟩ ⟨1, 0⟩ .rdlock
     ⟨fun _ => rfl, fun _ => rfl⟩ trivial (by decide)⟩

/-- C6: `vlc_savecancel` immediately followed by `vlc_restorecancel` with
the returned value restores the thread to exactly its previous state
(in particular its `killable` flag), and is a no-op for a main thread
with no record; the assertion in `vlc_restorecancel` cannot fire. -/
theorem vlc_savecancel_restorecancel_roundtrip :
    ∀ th : Option VThread,
      vlc_restorecancel (vlc_savecancel th).1 (vlc_savecancel th).2 = some th := by
  intro th
  match th with
  | none => rfl
  | some t => simp [vlc_savecancel, vlc_restorecancel]

/-- Counterexample for C7 as stated: a relative schedule with the
non-zero first-fire value −1000 ticks arms the timer with OS delay 0 ms,
while the ceiling of −1000 / 1000 is −1 — the OS delay does not equal
the ceiling for every non-zero first-fire value. -/
theorem vlc_timer_schedule_ceiling_counterexample :
    vlc_timer_schedule false (-1000) 0 0 = ⟨some (0, 0)⟩ ∧
    ceilDiv (-1000) 1000 = -1 ∧ ((0 : Int) ≠ -1) := by decide

/-- C7 (amended to nonnegative in-range tick values): for a schedule call
with non-zero first-fire time whose relative first-fire tick count (after
subtracting the current time in absolute mode) is nonnegative and at most
`1000 * (2^32 − 1)`, and likewise for the interval, the armed OS delay
and period equal the ceilings `⌈ticks / 1000⌉` — never rounded down, so
`1000 · delay ≥ ticks` and the timer never fires early. -/
theorem vlc_timer_schedule_ceiling_spec (absolute : Bool) (value interval now : Int)
    (hv0 : value ≠ 0)
    (ht : 0 ≤ (if absolute then value - now else value))
    (htb : (if absolute then value - now else value) ≤ 1000 * (2 ^ 32 - 1))
    (hi : 0 ≤ interval) (hib : interval ≤ 1000 * (2 ^ 32 - 1)) :
    vlc_timer_schedule absolute value interval now =
      ⟨some ((ceilDiv (if absolute then value - now else value) 1000).toNat,
             (ceilDiv interval 1000).toNat)⟩ ∧
    (if absolute then value - now else value) ≤
      1000 * ceilDiv (if absolute then value - now else value) 1000 ∧
    interval ≤ 1000 * ceilDiv interval 1000 := by
  obtain ⟨hc1, hc2, hc3⟩ := ceilDiv_thousand_spec _ ht htb
  obtain ⟨hd1, hd2, hd3⟩ := ceilDiv_thousand_spec _ hi hib
  refine ⟨?_, hc3, hd3⟩
  unfold vlc_timer_schedule
  rw [if_neg hv0]
  simp only [tdiv_add999_eq_ceilDiv _ ht, tdiv_add999_eq_ceilDiv _ hi,
    toDWORD_of_small _ hc1 hc2, toDWORD_of_small _ hd1 hd2]

/-- Witness for C7 (amended): a relative schedule of 1500 µs first-fire
with 2000 µs period arms the timer at 2 ms / 2 ms. -/
theorem vlc_timer_schedule_ceiling_witness :
    vlc_timer_schedule false 1500 2000 0 =
      ⟨some ((ceilDiv 1500 1000).toNat, (ceilDiv 2000 1000).toNat)⟩ ∧
    (1500 : Int) ≤ 1000 * ceilDiv 1500 1000 ∧
    (2000 : Int) ≤ 1000 * ceilDiv 2000 1000 :=
  vlc_timer_schedule_ceiling_spec false 1500 2000 0 (by decide) (by decide)
    (by decide) (by decide) (by decide)

/-- C8: `vlc_threadvar_set` returns `ENOMEM` exactly when the OS slot
store (`TlsSetValue`) reports success and 0 exactly when it reports
failure — inverted relative to the 0-on-success convention of
`vlc_threadvar_create`, whose success path returns 0. -/
theorem vlc_threadvar_set_inverted_spec :
    (∀ osSetOk : Bool, (vlc_threadvar_set osSetOk = ENOMEM ↔ osSetOk = true) ∧
                       (vlc_threadvar_set osSetOk = 0 ↔ osSetOk = false)) ∧
    (∀ errnoVal : Nat, vlc_threadvar_create true true errnoVal = 0) ∧
    ENOMEM ≠ 0 := by
  refine ⟨fun b => ?_, fun e => rfl, by decide⟩
  cases b <;> simp [vlc_threadvar_set, ENOMEM]

/-- Witness for C8: OS success maps to `ENOMEM`, OS failure to 0. -/
theorem vlc_threadvar_set_inverted_witness :
    vlc_threadvar_set true = ENOMEM ∧ vlc_threadvar_set false = 0 :=
  ⟨(vlc_threadvar_set_inverted_spec.1 true).1.mpr rfl,
   (vlc_threadvar_set_inverted_spec.1 false).2.mpr rfl⟩

/-- C9: on a condvar whose wake event handle is null (never passed
through `vlc_cond_init`), `vlc_cond_wait` just sleeps 50000 ticks and
returns, `vlc_cond_timedwait` sleeps 50000 ticks and returns 0
(signaled) for every deadline — even one already past — and
`vlc_cond_signal` / `vlc_cond_broadcast` are no-ops. -/
theorem vlc_cond_null_handle_spec (cv : CondVar) (h : cv.handle = false) :
    (∀ envs, vlc_cond_wait cv envs = some (cv, [.fixedSleep 50000])) ∧
    (∀ deadline envs,
       vlc_cond_timedwait cv deadline envs = some (cv, 0, [.fixedSleep 50000])) ∧
    vlc_cond_signal cv = cv ∧ vlc_cond_broadcast cv = cv := by
  refine ⟨fun envs => ?_, fun d envs => ?_, ?_, ?_⟩ <;>
    simp [vlc_cond_wait, vlc_cond_timedwait, vlc_cond_signal, vlc_cond_broadcast, h]

/-- Witness for C9: a null-handle condvar with the past deadline −100:
timed wait sleeps and reports 0, wait sleeps, signal does nothing. -/
theorem vlc_cond_null_handle_witness :
    vlc_cond_wait ⟨false, .monotonic, false⟩ [] =
      some (⟨false, .monotonic, false⟩, [.fixedSleep 50000]) ∧
    vlc_cond_timedwait ⟨false, .monotonic, false⟩ (-100) [] =
      some (⟨false, .monotonic, false⟩, 0, [.fixedSleep 50000]) ∧
    vlc_cond_signal ⟨false, .monotonic, false⟩ = ⟨false, .monotonic, false⟩ :=
  ⟨(vlc_cond_null_handle_spec ⟨false, .monotonic, false⟩ rfl).1 [],
   (vlc_cond_null_handle_spec ⟨false, .monotonic, false⟩ rfl).2.1 (-100) [],
   (vlc_cond_null_handle_spec ⟨false, .monotonic, false⟩ rfl).2.2.1⟩

/-- C10: with no active writer, `vlc_rwlock_rdlock` aborts instead of
incrementing when the reader count has reached `ULONG_MAX`, and under
`readers < ULONG_MAX` the abort branch is unreachable and the count is
incremented by exactly one. -/
theorem vlc_rwlock_rdlock_no_wrap_spec (s : RwState) (hw : s.writer = 0) :
    (s.readers = ULONG_MAX → vlc_rwlock_rdlock s = .aborted) ∧
    (s.readers < ULONG_MAX →
       vlc_rwlock_rdlock s = .ok { s with readers := s.readers + 1 }) := by
  refine ⟨fun hr => ?_, fun hr => ?_⟩
  · simp [vlc_rwlock_rdlock, hw, hr]
  · simp [vlc_rwlock_rdlock, hw, Nat.ne_of_lt hr]

/-- Witness for C10: from zero readers a read lock increments to one;
at `ULONG_MAX` readers it aborts. -/
theorem vlc_rwlock_rdlock_no_wrap_witness :
    vlc_rwlock_rdlock ⟨0, 0⟩ = .ok ⟨1, 0⟩ ∧
    vlc_rwlock_rdlock ⟨ULONG_MAX, 0⟩ = .aborted :=
  ⟨(vlc_rwlock_rdlock_no_wrap_spec ⟨0, 0⟩ rfl).2 (by decide),
   (vlc_rwlock_rdlock_no_wrap_spec ⟨ULONG_MAX, 0⟩ rfl).1 rfl⟩
